import Mathlib

/-!
Verification of the run-polling and message-extraction core of the
watsonx-Orchestrate chat client (files `app.py` and `fastapi_app.py`).

The embedding models Python JSON values as the inductive type `Json`,
Python truthiness as `Json.truthy`, and the `a or b` idiom on optional
values as `pyOr`.  The recursive message extractor `find_message` is
defined through a fuel-indexed structurally recursive function `fmF`
whose fuel is bounded by the size function `jsize`; the lemma
`find_message_eq` shows the resulting function satisfies the source's
recursion equation, and `fmF_stable` shows the result is independent of
the fuel once the fuel reaches the size of the input, i.e. the recursion
terminates and is deterministic.  The two polling loops are modelled as
functions over the finite trace of HTTP responses the service returns.
-/

/-- Python JSON values (numbers restricted to integers; floats play no
role in any claim). -/
inductive Json where
  | str (s : String)
  | num (n : Int)
  | bool (b : Bool)
  | null
  | arr (items : List Json)
  | obj (fields : List (String × Json))

/-- Python truthiness of a JSON value: empty strings, zero, `False`,
`None`, empty arrays and empty objects are falsy. -/
def Json.truthy : Json → Bool
  | .str s => !(s == "")
  | .num n => !(n == 0)
  | .bool b => b
  | .null => false
  | .arr items => !items.isEmpty
  | .obj fields => !fields.isEmpty

/-- Truthiness of a Python value that may be `None` (`none`). -/
def optTruthy : Option Json → Bool
  | some v => v.truthy
  | none => false

/-- Dictionary lookup, `obj.get(k)` / `obj[k]` (first binding wins). -/
def getKey : List (String × Json) → String → Option Json
  | [], _ => none
  | (k, v) :: rest, key => if k = key then some v else getKey rest key

/-- Lookup on an arbitrary JSON value: `None` when not an object. -/
def jGet (j : Json) (key : String) : Option Json :=
  match j with
  | Json.obj fields => getKey fields key
  | _ => none

/-- The Python `a or b` on optional JSON values: yields `a` when `a` is
bound and truthy, otherwise `b` (so all-falsy chains yield the last
operand, exactly as in Python). -/
def pyOr (a b : Option Json) : Option Json :=
  match a with
  | some v => if v.truthy then some v else b
  | none => b

/-- `obj.get("content") or obj.get("message") or obj.get("text")` from
the assistant branch of `find_message`. -/
def contentChain (fields : List (String × Json)) : Option Json :=
  pyOr (getKey fields "content") (pyOr (getKey fields "message") (getKey fields "text"))

/-- `run_json.get("status") or run_json.get("state") or run_json.get("run_status")`. -/
def statusChain (fields : List (String × Json)) : Option Json :=
  pyOr (getKey fields "status") (pyOr (getKey fields "state") (getKey fields "run_status"))

/-- `obj.get("role") == "assistant"`: a Python equality against a string
literal holds only for that exact string value. -/
def roleIsAssistant (fields : List (String × Json)) : Bool :=
  match getKey fields "role" with
  | some (Json.str s) => s == "assistant"
  | _ => false

/-- The ordered candidate keys probed by `find_message`. -/
def candidateKeys : List String :=
  ["message", "messages", "content", "output", "text", "result"]

/-- The `candidate = find_message(...); if candidate: return candidate`
pattern: keep a truthy (non-`None`, non-empty) recursive result,
otherwise continue with `cont`. -/
def firstTruthyStep (r : Option String) (cont : Option String) : Option String :=
  match r with
  | none => cont
  | some c => if c = "" then cont else some c

/-- One candidate-key hit of `find_message`: a string value is returned
immediately (`if isinstance(v, str): return v`), otherwise the recursive
result is kept when truthy. -/
def candStep (g : Json → Option String) (v : Json) (cont : Option String) : Option String :=
  match v with
  | Json.str s => some s
  | v => firstTruthyStep (g v) cont

/-- The candidate-key loop of `find_message`. -/
def candProbe (g : Json → Option String) (fields : List (String × Json)) :
    List String → Option String
  | [] => none
  | k :: ks =>
    match getKey fields k with
    | none => candProbe g fields ks
    | some v => candStep g v (candProbe g fields ks)

/-- The fallback loop of `find_message`: recurse into every value of the
object in order, returning the first truthy recursive result. -/
def valsFallback (g : Json → Option String) : List (String × Json) → Option String
  | [] => none
  | (_, v) :: rest => firstTruthyStep (g v) (valsFallback g rest)

/-- The list branch of `find_message`: recurse into each element in
order, returning the first truthy recursive result. -/
def listSearch (g : Json → Option String) : List Json → Option String
  | [] => none
  | x :: rest => firstTruthyStep (g x) (listSearch g rest)

/-- The part of `find_message`'s dict branch after the assistant branch
has fallen through: the candidate-key loop, then the all-values fallback. -/
def objTailWith (g : Json → Option String) (fields : List (String × Json)) : Option String :=
  match candProbe g fields candidateKeys with
  | some s => some s
  | none => valsFallback g fields

/-- The assistant branch of `find_message` applied to the selected
content value `c`: a string content is returned directly, a dict/list
content is recursed into with its result returned unconditionally, and
any other content (absent, number, boolean, `None`) falls through to the
candidate-key loop and the all-values fallback. -/
def assistantBranch (g : Json → Option String) (fields : List (String × Json))
    (c : Option Json) : Option String :=
  match c with
  | some (Json.str s) => some s
  | some (Json.obj fields2) => g (Json.obj fields2)
  | some (Json.arr items) => g (Json.arr items)
  | _ => objTailWith g fields

/-- One unfolding of the body of `find_message`, with `g` standing for
the recursive calls.  Mirrors the source line by line. -/
def fmBody (g : Json → Option String) : Json → Option String
  | Json.obj fields =>
    if roleIsAssistant fields then assistantBranch g fields (contentChain fields)
    else objTailWith g fields
  | Json.arr items => listSearch g items
  | _ => none

/-- Fuel-indexed message extractor; with fuel at least `jsize` of the
input the fuel never runs out (`fmF_stable`). -/
def fmF : Nat → Json → Option String
  | 0, _ => none
  | f + 1, j => fmBody (fun v => fmF f v) j

mutual

/-- Size of a JSON value, bounding the recursion depth of `find_message`. -/
def jsize : Json → Nat
  | .str _ => 1
  | .num _ => 1
  | .bool _ => 1
  | .null => 1
  | .arr items => 1 + jsizeList items
  | .obj fields => 1 + jsizeFields fields

/-- Total size of a list of JSON values. -/
def jsizeList : List Json → Nat
  | [] => 0
  | x :: rest => jsize x + jsizeList rest

/-- Total size of the values of an object's field list. -/
def jsizeFields : List (String × Json) → Nat
  | [] => 0
  | (_, v) :: rest => jsize v + jsizeFields rest

end

/-- `find_message` / `_extract_agent_message_from_run`: the recursive
message extractor of both source files. -/
def find_message (j : Json) : Option String :=
  fmF (jsize j) j

example : find_message (Json.obj [("role", Json.str "assistant"), ("content", Json.str "hello")]) =
    some "hello" := rfl

example : find_message (Json.obj [("output", Json.obj [("text", Json.str "hi")])]) =
    some "hi" := rfl

example : find_message (Json.obj [("foo", Json.num 1)]) = none := rfl

/-! ### Size lemmas -/

theorem jsize_pos (j : Json) : 0 < jsize j := by
  cases j <;> simp [jsize]

theorem jsize_le_of_getKey {fields : List (String × Json)} {key : String} {v : Json}
    (h : getKey fields key = some v) : jsize v ≤ jsizeFields fields := by
  induction fields with
  | nil => simp [getKey] at h
  | cons p rest ih =>
    obtain ⟨k, w⟩ := p
    simp only [getKey] at h
    by_cases hk : k = key
    · rw [if_pos hk] at h
      cases h
      simp [jsizeFields]
    · rw [if_neg hk] at h
      have := ih h
      simp only [jsizeFields]
      omega

theorem jsize_le_of_mem_fields {fields : List (String × Json)} {p : String × Json}
    (h : p ∈ fields) : jsize p.2 ≤ jsizeFields fields := by
  induction fields with
  | nil => simp at h
  | cons q rest ih =>
    rcases List.mem_cons.mp h with h | h
    · subst h
      obtain ⟨k, w⟩ := p
      simp [jsizeFields]
    · have := ih h
      obtain ⟨k, w⟩ := q
      simp only [jsizeFields]
      omega

theorem jsize_le_of_mem_list {items : List Json} {x : Json}
    (h : x ∈ items) : jsize x ≤ jsizeList items := by
  induction items with
  | nil => simp at h
  | cons y rest ih =>
    rcases List.mem_cons.mp h with h | h
    · subst h
      simp [jsizeList]
    · have := ih h
      simp only [jsizeList]
      omega

theorem pyOr_eq_some {a b : Option Json} {v : Json} (h : pyOr a b = some v) :
    a = some v ∨ b = some v := by
  cases a with
  | none => exact Or.inr h
  | some w =>
    simp only [pyOr] at h
    by_cases hw : w.truthy = true
    · rw [if_pos hw] at h
      exact Or.inl h
    · rw [if_neg hw] at h
      exact Or.inr h

theorem jsize_le_of_contentChain {fields : List (String × Json)} {v : Json}
    (h : contentChain fields = some v) : jsize v ≤ jsizeFields fields := by
  unfold contentChain at h
  rcases pyOr_eq_some h with h | h
  · exact jsize_le_of_getKey h
  · rcases pyOr_eq_some h with h | h
    · exact jsize_le_of_getKey h
    · exact jsize_le_of_getKey h

/-! ### Congruence lemmas: the loops only apply `g` to values of the object -/

theorem candStep_congr {g₁ g₂ : Json → Option String} {v : Json} {c₁ c₂ : Option String}
    (hg : g₁ v = g₂ v) (hc : c₁ = c₂) : candStep g₁ v c₁ = candStep g₂ v c₂ := by
  cases v <;> simp [candStep, hg, hc]

theorem candProbe_congr {g₁ g₂ : Json → Option String} {fields : List (String × Json)}
    (h : ∀ v : Json, (∃ k, getKey fields k = some v) → g₁ v = g₂ v) :
    ∀ ks, candProbe g₁ fields ks = candProbe g₂ fields ks := by
  intro ks
  induction ks with
  | nil => rfl
  | cons k ks ih =>
    simp only [candProbe]
    cases hk : getKey fields k with
    | none => exact ih
    | some v => exact candStep_congr (h v ⟨k, hk⟩) ih

theorem assistantBranch_congr {g₁ g₂ : Json → Option String} {fields : List (String × Json)}
    {c : Option Json} (hg : ∀ v : Json, c = some v → g₁ v = g₂ v)
    (ht : objTailWith g₁ fields = objTailWith g₂ fields) :
    assistantBranch g₁ fields c = assistantBranch g₂ fields c := by
  cases c with
  | none => simpa [assistantBranch] using ht
  | some v =>
    cases v with
    | str s => rfl
    | obj fields2 => exact hg _ rfl
    | arr items => exact hg _ rfl
    | num n => simpa [assistantBranch] using ht
    | bool b => simpa [assistantBranch] using ht
    | null => simpa [assistantBranch] using ht

theorem valsFallback_congr {g₁ g₂ : Json → Option String} :
    ∀ fields : List (String × Json), (∀ p ∈ fields, g₁ p.2 = g₂ p.2) →
    valsFallback g₁ fields = valsFallback g₂ fields := by
  intro fields
  induction fields with
  | nil => intro _; rfl
  | cons p rest ih =>
    intro h
    obtain ⟨k, v⟩ := p
    simp only [valsFallback]
    rw [h ⟨k, v⟩ (List.mem_cons_self _ _), ih fun q hq => h q (List.mem_cons_of_mem _ hq)]

theorem listSearch_congr {g₁ g₂ : Json → Option String} :
    ∀ items : List Json, (∀ x ∈ items, g₁ x = g₂ x) →
    listSearch g₁ items = listSearch g₂ items := by
  intro items
  induction items with
  | nil => intro _; rfl
  | cons x rest ih =>
    intro h
    simp only [listSearch]
    rw [h x (List.mem_cons_self _ _), ih fun y hy => h y (List.mem_cons_of_mem _ hy)]

theorem objTailWith_congr {g₁ g₂ : Json → Option String} {fields : List (String × Json)}
    (hk : ∀ v : Json, (∃ k, getKey fields k = some v) → g₁ v = g₂ v)
    (hm : ∀ p ∈ fields, g₁ p.2 = g₂ p.2) :
    objTailWith g₁ fields = objTailWith g₂ fields := by
  unfold objTailWith
  rw [candProbe_congr hk candidateKeys, valsFallback_congr fields hm]

theorem fmBody_congr {g₁ g₂ : Json → Option String} (j : Json)
    (h : ∀ v : Json, jsize v < jsize j → g₁ v = g₂ v) :
    fmBody g₁ j = fmBody g₂ j := by
  cases j with
  | str s => rfl
  | num n => rfl
  | bool b => rfl
  | null => rfl
  | arr items =>
    simp only [fmBody]
    exact listSearch_congr items fun x hx =>
      h x (by have := jsize_le_of_mem_list hx; simp only [jsize]; omega)
  | obj fields =>
    have hk : ∀ v : Json, (∃ k, getKey fields k = some v) → g₁ v = g₂ v := by
      rintro v ⟨k, hgk⟩
      refine h v ?_
      have := jsize_le_of_getKey hgk
      simp only [jsize]
      omega
    have hm : ∀ p ∈ fields, g₁ p.2 = g₂ p.2 := by
      intro p hp
      refine h p.2 ?_
      have := jsize_le_of_mem_fields hp
      simp only [jsize]
      omega
    have ht : objTailWith g₁ fields = objTailWith g₂ fields := objTailWith_congr hk hm
    simp only [fmBody]
    by_cases hr : roleIsAssistant fields = true
    · simp only [if_pos hr]
      refine assistantBranch_congr ?_ ht
      intro v hv
      refine h v ?_
      have := jsize_le_of_contentChain hv
      simp only [jsize]
      omega
    · simp only [if_neg hr]
      exact ht

/-! ### Fuel stability and the recursion equation -/

theorem fmF_stable : ∀ (n : Nat) (j : Json) (f₁ f₂ : Nat),
    jsize j ≤ n → jsize j ≤ f₁ → jsize j ≤ f₂ → fmF f₁ j = fmF f₂ j := by
  intro n
  induction n with
  | zero => intro j _ _ hn _ _; exact absurd hn (by have := jsize_pos j; omega)
  | succ n ih =>
    intro j f₁ f₂ hn h₁ h₂
    have hj := jsize_pos j
    cases f₁ with
    | zero => omega
    | succ a =>
      cases f₂ with
      | zero => omega
      | succ b =>
        simp only [fmF]
        exact fmBody_congr j fun v hv => ih v a b (by omega) (by omega) (by omega)

theorem fmF_eq_find_message {f : Nat} {j : Json} (h : jsize j ≤ f) :
    fmF f j = find_message j :=
  fmF_stable f j f (jsize j) h h le_rfl

/-- `find_message` satisfies the recursion equation of the source
function: unfolding one step of `fmBody` with `find_message` itself as
the recursive call gives back `find_message`. -/
theorem find_message_eq (j : Json) : find_message j = fmBody find_message j := by
  have hj := jsize_pos j
  cases hs : jsize j with
  | zero => omega
  | succ m =>
    have : find_message j = fmF (m + 1) j := by rw [find_message, hs]
    rw [this]
    simp only [fmF]
    exact fmBody_congr j fun v hv => fmF_eq_find_message (by omega)

theorem find_message_leaf_str (s : String) : find_message (Json.str s) = none := by
  rw [find_message_eq]; rfl

theorem find_message_leaf_num (n : Int) : find_message (Json.num n) = none := by
  rw [find_message_eq]; rfl

theorem find_message_leaf_bool (b : Bool) : find_message (Json.bool b) = none := by
  rw [find_message_eq]; rfl

theorem find_message_arr (items : List Json) :
    find_message (Json.arr items) = listSearch find_message items := by
  rw [find_message_eq]; rfl

theorem find_message_obj (fields : List (String × Json)) :
    find_message (Json.obj fields) =
      if roleIsAssistant fields then assistantBranch find_message fields (contentChain fields)
      else objTailWith find_message fields := by
  rw [find_message_eq]
  rfl

/-! ### Token provider, pollers and thread adoption -/

/-- An HTTP response as observed by the client: transport status code,
decoded JSON body, and raw body text. -/
structure HttpResp where
  status_code : Nat
  body : Json
  text : String

/-- The error raised when the token exchange fails, carrying the
upstream status code and a detail message. -/
structure AuthError where
  status_code : Nat
  detail : String

/-- Whether `httpx.Response.raise_for_status()` passes: a 2xx status. -/
def isSuccessStatus (code : Nat) : Bool :=
  decide (200 ≤ code) && decide (code ≤ 299)

/-- `resp.json().get("access_token")`. -/
def accessTokenOf (body : Json) : Option Json :=
  jGet body "access_token"

/-- `get_bearer_token_sync` (`app.py`): `raise_for_status()` then return
the `access_token` field of the body, which is `None` when absent. -/
def get_bearer_token_sync (resp : HttpResp) : Except AuthError (Option Json) :=
  if isSuccessStatus resp.status_code then Except.ok (accessTokenOf resp.body)
  else Except.error ⟨resp.status_code, resp.text⟩

/-- `get_bearer_token` (`fastapi_app.py`): on status 200 return the
`access_token` field (possibly `None`), otherwise raise `HTTPException`. -/
def get_bearer_token (resp : HttpResp) : Except AuthError (Option Json) :=
  if resp.status_code = 200 then Except.ok (accessTokenOf resp.body)
  else Except.error ⟨resp.status_code, "Could not generate IAM token"⟩

/-- ASCII lowercasing of one character (the statuses the claims involve
are ASCII, so this models Python's `str.lower`). -/
def lowerChar (c : Char) : Char :=
  if 65 ≤ c.toNat && c.toNat ≤ 90 then Char.ofNat (c.toNat + 32) else c

/-- `s.lower()` on ASCII strings. -/
def strToLower (s : String) : String :=
  String.mk (s.data.map lowerChar)

/-- The status value the synchronous poller computes from a run body:
the `status`/`state`/`run_status` chain, lowercased when a string
(`app.py` lines 69-73). -/
def runStatusSync (run_json : Json) : Option Json :=
  match run_json with
  | Json.obj fields =>
    match statusChain fields with
    | some (Json.str s) => some (Json.str (strToLower s))
    | other => other
  | _ => none

/-- The status value the async poller computes: the same chain, not
lowercased (`fastapi_app.py` lines 94-96). -/
def runStatusAsync (run_json : Json) : Option Json :=
  match run_json with
  | Json.obj fields => statusChain fields
  | _ => none

/-- Whether an (already lowercased) status value equals the Python
string `"running"`. -/
def statusIsRunning (status : Option Json) : Bool :=
  match status with
  | some (Json.str s) => s == "running"
  | _ => false

/-- `app.py` line 74: `if not status or status != "running"` — the
synchronous poller stops and extracts on this condition. -/
def isTerminalSync (run_json : Json) : Bool :=
  !(optTruthy (runStatusSync run_json)) || !(statusIsRunning (runStatusSync run_json))

/-- `fastapi_app.py` line 99: `if not status or (isinstance(status, str)
and status.lower() != "running")` — the async poller stops and extracts
on this condition. -/
def isTerminalAsync (run_json : Json) : Bool :=
  !(optTruthy (runStatusAsync run_json)) ||
    (match runStatusAsync run_json with
     | some (Json.str s) => !(strToLower s == "running")
     | _ => false)

/-- Outcome of a polling loop. -/
inductive PollOutcome where
  | transport_error (status_code : Nat) (detail : String)
  | finished (message : Option String) (run_json : Json)
  | timeout (last_run : Json)
  | pending

/-- `fetch_run_and_extract_message_sync` (`app.py` lines 59-82), driven
by the finite trace of responses the status endpoint returns; the
accumulated wait time, maximum wait and poll interval are rationals
standing for the source's floats.  Also counts the sleeps performed.
`pending` is the state of the loop when the trace is exhausted while the
source would fetch again. -/
def fetch_run_and_extract_message_sync :
    List HttpResp → ℚ → ℚ → ℚ → Nat → PollOutcome × Nat
  | [], _, _, _, sleeps => (PollOutcome.pending, sleeps)
  | resp :: rest, elapsed, max_wait_seconds, poll_interval, sleeps =>
    if resp.status_code ≠ 200 then
      (PollOutcome.transport_error resp.status_code resp.text, sleeps)
    else if isTerminalSync resp.body then
      (PollOutcome.finished (find_message resp.body) resp.body, sleeps)
    else if max_wait_seconds ≤ elapsed then
      (PollOutcome.timeout resp.body, sleeps)
    else
      fetch_run_and_extract_message_sync rest (elapsed + poll_interval)
        max_wait_seconds poll_interval (sleeps + 1)

/-- `_fetch_run_and_extract_message` (`fastapi_app.py` lines 79-113):
identical control flow with the async terminal condition. -/
def _fetch_run_and_extract_message :
    List HttpResp → ℚ → ℚ → ℚ → Nat → PollOutcome × Nat
  | [], _, _, _, sleeps => (PollOutcome.pending, sleeps)
  | resp :: rest, elapsed, max_wait_seconds, poll_interval, sleeps =>
    if resp.status_code ≠ 200 then
      (PollOutcome.transport_error resp.status_code resp.text, sleeps)
    else if isTerminalAsync resp.body then
      (PollOutcome.finished (find_message resp.body) resp.body, sleeps)
    else if max_wait_seconds ≤ elapsed then
      (PollOutcome.timeout resp.body, sleeps)
    else
      _fetch_run_and_extract_message rest (elapsed + poll_interval)
        max_wait_seconds poll_interval (sleeps + 1)

/-- `_send_callback` lines 160-162 (`app.py`): adopt the thread id
returned by the run-creation response only when one is returned (truthy)
and none is set yet. -/
def adoptThreadId (current : Option Json) (orchestrate_resp : Json) : Option Json :=
  let returned := pyOr (jGet orchestrate_resp "thread_id") (jGet orchestrate_resp "threadId")
  if optTruthy returned && !(optTruthy current) then returned else current

/-- `start_orchestrate_run_sync` payload construction (`app.py` lines
90-95): the `thread_id` field is included only when the session value is
truthy. -/
def startRunPayload (message : String) (agent_id : String) (thread_id : Option Json) :
    List (String × Json) :=
  let base := [("message", Json.obj [("role", Json.str "user"), ("content", Json.str message)]),
               ("agent_id", Json.str agent_id)]
  match thread_id with
  | some v => if v.truthy then base ++ [("thread_id", v)] else base
  | none => base

example :
    fetch_run_and_extract_message_sync
      [⟨200, Json.obj [("status", Json.str "running")], ""⟩,
       ⟨200, Json.obj [("status", Json.str "done")], ""⟩] 0 60 (1/2) 0 =
    (PollOutcome.finished none (Json.obj [("status", Json.str "done")]), 1) := rfl

theorem find_message_leaf_null : find_message Json.null = none := by
  rw [find_message_eq]; rfl

/-! ## Claim C1: token acquisition failure modes -/

/-- C1 counterexample: on a success (200) response whose JSON body lacks
an `access_token` field, both token functions return a normal result
(`Except.ok none`, i.e. Python `None`), not an `AuthError`, contradicting
the claim that `obtain_token` fails whenever the access-token field is
missing. -/
theorem C1_counterexample :
    get_bearer_token_sync ⟨200, Json.obj [], ""⟩ = Except.ok none ∧
    get_bearer_token ⟨200, Json.obj [], ""⟩ = Except.ok none :=
  ⟨rfl, rfl⟩

/-- C1 amended: `obtain_token` fails with an `AuthError` exactly when the
identity endpoint returns a non-success status (2xx for the sync client,
exactly 200 for the async one); on a success status it always returns
normally, yielding the body's access-token field when present and `None`
when absent. -/
theorem C1_amended (resp : HttpResp) :
    (isSuccessStatus resp.status_code = false →
      get_bearer_token_sync resp = Except.error ⟨resp.status_code, resp.text⟩) ∧
    (isSuccessStatus resp.status_code = true →
      get_bearer_token_sync resp = Except.ok (accessTokenOf resp.body)) ∧
    (resp.status_code ≠ 200 →
      get_bearer_token resp = Except.error ⟨resp.status_code, "Could not generate IAM token"⟩) ∧
    (resp.status_code = 200 →
      get_bearer_token resp = Except.ok (accessTokenOf resp.body)) := by
  refine ⟨?_, ?_, ?_, ?_⟩ <;> intro h <;>
    simp [get_bearer_token_sync, get_bearer_token, h]

/-- Witness for C1 amended at a failing and a succeeding response. -/
theorem C1_witness :
    get_bearer_token_sync ⟨500, Json.obj [], "boom"⟩ = Except.error ⟨500, "boom"⟩ ∧
    get_bearer_token ⟨200, Json.obj [("access_token", Json.str "tok")], ""⟩ =
      Except.ok (some (Json.str "tok")) :=
  ⟨(C1_amended ⟨500, Json.obj [], "boom"⟩).1 (by decide),
   (C1_amended ⟨200, Json.obj [("access_token", Json.str "tok")], ""⟩).2.2.2 rfl⟩

/-! ## Claim C2: non-"running" statuses are terminal -/

/-- C2 evaluated at the failing input `{"status": 5}`: the synchronous
poller treats the truthy non-string status as terminal and extracts, but
the async poller (`fastapi_app.py`) does not — contradicting its own
docstring, it keeps polling: at the deadline it times out, and below the
deadline it sleeps and polls again. -/
theorem C2_divergence_eval :
    fetch_run_and_extract_message_sync
      [⟨200, Json.obj [("status", Json.num 5)], ""⟩] 0 60 1 0 =
      (PollOutcome.finished none (Json.obj [("status", Json.num 5)]), 0) ∧
    _fetch_run_and_extract_message
      [⟨200, Json.obj [("status", Json.num 5)], ""⟩] 120 120 1 0 =
      (PollOutcome.timeout (Json.obj [("status", Json.num 5)]), 0) ∧
    _fetch_run_and_extract_message
      [⟨200, Json.obj [("status", Json.num 5)], ""⟩] 0 120 1 0 =
      (PollOutcome.pending, 1) :=
  ⟨rfl, rfl, rfl⟩

/-! ## Claim C8: the extractor terminates and is deterministic -/

/-- C8: the extractor's recursion is well-founded — any fuel of at least
the size of the input yields the same result as `find_message`, so the
recursion reaches a fixed answer within `jsize j` nested calls and two
runs on the same input agree — and `find_message` satisfies the source's
recursion equation (`fmBody`). -/
theorem C8_terminates_deterministic (j : Json) (f : Nat) (h : jsize j ≤ f) :
    fmF f j = find_message j ∧ find_message j = fmBody find_message j :=
  ⟨fmF_eq_find_message h, find_message_eq j⟩

/-- Witness for C8 at a concrete input and fuel. -/
theorem C8_witness :
    fmF 7 (Json.obj [("role", Json.str "assistant"), ("content", Json.str "hello")]) =
      find_message (Json.obj [("role", Json.str "assistant"), ("content", Json.str "hello")]) ∧
    find_message (Json.obj [("role", Json.str "assistant"), ("content", Json.str "hello")]) =
      fmBody find_message (Json.obj [("role", Json.str "assistant"), ("content", Json.str "hello")]) :=
  C8_terminates_deterministic _ 7 (by decide)

/-! ## Claims C3, C4, C10: how the or-chains select values -/

theorem pyOr_eq_ite (a b : Option Json) :
    pyOr a b = if optTruthy a then a else b := by
  cases a with
  | none => simp [pyOr, optTruthy]
  | some v =>
    by_cases hv : v.truthy = true <;> simp [pyOr, optTruthy, hv]

/-- The status probe as claim C3 states it: the first *present* field
among "status", "state", "run_status" wins, regardless of its value. -/
def specStatusFirstPresent (fields : List (String × Json)) : Option Json :=
  match getKey fields "status" with
  | some v => some v
  | none =>
    match getKey fields "state" with
    | some v => some v
    | none => getKey fields "run_status"

/-- The status probe as the code implements it, worded independently:
the first field with a *truthy* value wins; when all candidates are
falsy the probe yields the (falsy) value of "run_status", or `None`
when that too is absent. -/
def specStatusFirstTruthy (fields : List (String × Json)) : Option Json :=
  if optTruthy (getKey fields "status") then getKey fields "status"
  else if optTruthy (getKey fields "state") then getKey fields "state"
  else getKey fields "run_status"

/-- Lowercase a JSON value when it is a string, as the sync poller does
to the probed status. -/
def lowerIfString (v : Json) : Json :=
  match v with
  | Json.str s => Json.str (strToLower s)
  | other => other

theorem specStatusFirstTruthy_eq_statusChain (fields : List (String × Json)) :
    specStatusFirstTruthy fields = statusChain fields := by
  rw [specStatusFirstTruthy, statusChain, pyOr_eq_ite, pyOr_eq_ite]

theorem runStatusSync_eq_map (fields : List (String × Json)) :
    runStatusSync (Json.obj fields) = Option.map lowerIfString (statusChain fields) := by
  simp only [runStatusSync]
  cases h : statusChain fields with
  | none => rfl
  | some v => cases v <;> simp [lowerIfString]

/-- C3 counterexample: on `{"status": "", "state": "Running"}` the code's
probe skips the present-but-falsy "status" field and selects "Running"
from "state" (keeping the poller polling), while the claim's
first-present rule would select `""` from "status"; the two probed
values differ. -/
theorem C3_counterexample :
    runStatusSync (Json.obj [("status", Json.str ""), ("state", Json.str "Running")]) =
      some (Json.str "running") ∧
    Option.map lowerIfString
        (specStatusFirstPresent [("status", Json.str ""), ("state", Json.str "Running")]) =
      some (Json.str "") ∧
    some (Json.str "running") ≠ some (Json.str "") := by
  refine ⟨rfl, rfl, ?_⟩
  intro h
  injection h with h1
  injection h1 with h2
  exact absurd h2 (by decide)

/-- C3 amended: the probe selects the first *truthy* value among the
fields "status", "state", "run_status" in that order; when none is
truthy it yields the value of "run_status" (or null when absent), which
is falsy; the sync poller lowercases the chosen value when it is a
string, the async poller keeps it as is. -/
theorem C3_amended (fields : List (String × Json)) :
    runStatusSync (Json.obj fields) =
      Option.map lowerIfString (specStatusFirstTruthy fields) ∧
    runStatusAsync (Json.obj fields) = specStatusFirstTruthy fields := by
  rw [specStatusFirstTruthy_eq_statusChain]
  exact ⟨runStatusSync_eq_map fields, rfl⟩

/-- The assistant-branch selection as claim C4 states it: the first
*present* field among "content", "message", "text" wins, regardless of
its value. -/
def specAssistantFirstPresent (fields : List (String × Json)) : Option Json :=
  match getKey fields "content" with
  | some v => some v
  | none =>
    match getKey fields "message" with
    | some v => some v
    | none => getKey fields "text"

/-- The assistant-branch selection as the code implements it: the first
field with a *truthy* value wins; when all are falsy the chain yields
the (falsy) value of "text", or `None` when that too is absent. -/
def specAssistantFirstTruthy (fields : List (String × Json)) : Option Json :=
  if optTruthy (getKey fields "content") then getKey fields "content"
  else if optTruthy (getKey fields "message") then getKey fields "message"
  else getKey fields "text"

theorem specAssistantFirstTruthy_eq_contentChain (fields : List (String × Json)) :
    specAssistantFirstTruthy fields = contentChain fields := by
  rw [specAssistantFirstTruthy, contentChain, pyOr_eq_ite, pyOr_eq_ite]

/-- C4 counterexample: on
`{"role": "assistant", "content": "", "message": "hi"}` the claim's
first-present rule selects the string `""` under "content" and would
return it directly, but the extractor skips the falsy "content" and
returns `"hi"` from "message". -/
theorem C4_counterexample :
    find_message (Json.obj [("role", Json.str "assistant"), ("content", Json.str ""),
      ("message", Json.str "hi")]) = some "hi" ∧
    specAssistantFirstPresent [("role", Json.str "assistant"), ("content", Json.str ""),
      ("message", Json.str "hi")] = some (Json.str "") ∧
    ("hi" : String) ≠ "" :=
  ⟨rfl, rfl, by decide⟩

/-- C4 amended: in an object whose "role" is "assistant", the extractor
selects the first *truthy* value among "content", "message", "text"
(yielding "text"'s falsy value, or null, when none is truthy); a string
selection is returned directly, and an object or array selection is
recursed into with that recursion's result returned. -/
theorem C4_amended (fields : List (String × Json)) (hrole : roleIsAssistant fields = true) :
    (∀ s, specAssistantFirstTruthy fields = some (Json.str s) →
      find_message (Json.obj fields) = some s) ∧
    (∀ fields2, specAssistantFirstTruthy fields = some (Json.obj fields2) →
      find_message (Json.obj fields) = find_message (Json.obj fields2)) ∧
    (∀ items, specAssistantFirstTruthy fields = some (Json.arr items) →
      find_message (Json.obj fields) = find_message (Json.arr items)) := by
  rw [specAssistantFirstTruthy_eq_contentChain]
  refine ⟨?_, ?_, ?_⟩ <;> intro x hx <;>
    rw [find_message_obj, if_pos hrole, hx] <;> rfl

/-- Witness for C4 amended at a concrete assistant object. -/
theorem C4_witness :
    find_message (Json.obj [("role", Json.str "assistant"), ("content", Json.str "hello")]) =
      some "hello" :=
  (C4_amended [("role", Json.str "assistant"), ("content", Json.str "hello")] rfl).1 "hello" rfl

/-- C10 counterexample: `{"role": "assistant", "text": {}, "output": "hi"}`
is an assistant object in which none of "content"/"message"/"text" is
truthy and a message `"hi"` sits under the candidate key "output", yet
the extractor returns nothing: the or-chain selects the empty object
under "text", recurses into it unconditionally, and returns that `None`
without falling through to candidate-key probing. -/
theorem C10_counterexample :
    find_message (Json.obj [("role", Json.str "assistant"), ("text", Json.obj []),
      ("output", Json.str "hi")]) = none ∧
    roleIsAssistant [("role", Json.str "assistant"), ("text", Json.obj []),
      ("output", Json.str "hi")] = true ∧
    optTruthy (getKey [("role", Json.str "assistant"), ("text", Json.obj []),
      ("output", Json.str "hi")] "content") = false ∧
    optTruthy (getKey [("role", Json.str "assistant"), ("text", Json.obj []),
      ("output", Json.str "hi")] "message") = false ∧
    optTruthy (getKey [("role", Json.str "assistant"), ("text", Json.obj []),
      ("output", Json.str "hi")] "text") = false ∧
    getKey [("role", Json.str "assistant"), ("text", Json.obj []),
      ("output", Json.str "hi")] "output" = some (Json.str "hi") :=
  ⟨rfl, rfl, rfl, rfl, rfl, rfl⟩

/-- C10 amended: an assistant-tagged object falls through to
candidate-key probing and the all-values fallback exactly when the
"content"/"message"/"text" or-chain yields no value at all or a value
that is neither a string nor an object/array (null, number or boolean);
a falsy string is returned directly and a falsy object/array is recursed
into with that recursion's result returned, so no fall-through happens
in those cases. -/
theorem C10_amended (fields : List (String × Json)) (hrole : roleIsAssistant fields = true)
    (hc : contentChain fields = none ∨ contentChain fields = some Json.null ∨
      (∃ n, contentChain fields = some (Json.num n)) ∨
      (∃ b, contentChain fields = some (Json.bool b))) :
    find_message (Json.obj fields) = objTailWith find_message fields := by
  rw [find_message_obj, if_pos hrole]
  rcases hc with h | h | ⟨n, h⟩ | ⟨b, h⟩ <;> rw [h] <;> rfl

/-- Witness for C10 amended at a concrete assistant object with no
content at all. -/
theorem C10_witness :
    find_message (Json.obj [("role", Json.str "assistant")]) =
      objTailWith find_message [("role", Json.str "assistant")] :=
  C10_amended [("role", Json.str "assistant")] rfl (Or.inl rfl)

/-! ## Claim C5: nothing to extract yields no result -/

/-- A JSON value containing, anywhere in its nested structure, no object
whose "role" field equals "assistant" and no object with any of the
candidate keys. -/
inductive NoExtractables : Json → Prop where
  | str (s : String) : NoExtractables (Json.str s)
  | num (n : Int) : NoExtractables (Json.num n)
  | bool (b : Bool) : NoExtractables (Json.bool b)
  | null : NoExtractables Json.null
  | arr (items : List Json) (h : ∀ x ∈ items, NoExtractables x) :
      NoExtractables (Json.arr items)
  | obj (fields : List (String × Json))
      (hrole : roleIsAssistant fields = false)
      (hkeys : ∀ k ∈ candidateKeys, getKey fields k = none)
      (hvals : ∀ p ∈ fields, NoExtractables p.2) :
      NoExtractables (Json.obj fields)

theorem candProbe_none {g : Json → Option String} {fields : List (String × Json)}
    {ks : List String} (h : ∀ k ∈ ks, getKey fields k = none) :
    candProbe g fields ks = none := by
  induction ks with
  | nil => rfl
  | cons k ks ih =>
    simp only [candProbe, h k (List.mem_cons_self _ _)]
    exact ih fun k2 hk2 => h k2 (List.mem_cons_of_mem _ hk2)

theorem valsFallback_none {g : Json → Option String} :
    ∀ {fields : List (String × Json)}, (∀ p ∈ fields, g p.2 = none) →
    valsFallback g fields = none := by
  intro fields h
  induction fields with
  | nil => rfl
  | cons p rest ih =>
    obtain ⟨k, v⟩ := p
    simp only [valsFallback, h ⟨k, v⟩ (List.mem_cons_self _ _), firstTruthyStep]
    exact ih fun q hq => h q (List.mem_cons_of_mem _ hq)

theorem listSearch_none {g : Json → Option String} :
    ∀ {items : List Json}, (∀ x ∈ items, g x = none) →
    listSearch g items = none := by
  intro items h
  induction items with
  | nil => rfl
  | cons x rest ih =>
    simp only [listSearch, h x (List.mem_cons_self _ _), firstTruthyStep]
    exact ih fun y hy => h y (List.mem_cons_of_mem _ hy)

/-- C5: on any finite JSON value with no assistant-role object and no
candidate key anywhere in its nested structure, the extractor returns no
result. -/
theorem C5_no_extractables_none (j : Json) (h : NoExtractables j) :
    find_message j = none := by
  induction h with
  | str s => exact find_message_leaf_str s
  | num n => exact find_message_leaf_num n
  | bool b => exact find_message_leaf_bool b
  | null => exact find_message_leaf_null
  | arr items h ih =>
    rw [find_message_arr]
    exact listSearch_none ih
  | obj fields hrole hkeys hvals ih =>
    rw [find_message_obj, if_neg (by simp [hrole])]
    show objTailWith find_message fields = none
    rw [objTailWith, candProbe_none hkeys]
    exact valsFallback_none ih

/-- Witness for C5 at a concrete value with no extractable content. -/
theorem C5_witness :
    find_message (Json.obj [("foo", Json.num 1), ("bar", Json.arr [Json.str "x"])]) = none :=
  C5_no_extractables_none _
    (NoExtractables.obj _ rfl
      (by intro k hk; simp only [candidateKeys] at hk; fin_cases hk <;> rfl)
      (by
        intro p hp
        fin_cases hp
        · exact NoExtractables.num 1
        · exact NoExtractables.arr _ (by
            intro x hx
            fin_cases hx
            exact NoExtractables.str "x")))

/-! ## Claims C6, C7: polling scenarios -/

/-- C6: on the status trace running, running, completed, with the
configured maximum wait exceeding two (nonnegative) poll intervals, both
pollers sleep exactly twice and return the extractor's result on the
third body together with that body. -/
theorem C6_two_sleeps (max_wait poll_interval : ℚ)
    (h0 : 0 ≤ poll_interval) (h2 : 2 * poll_interval < max_wait) :
    fetch_run_and_extract_message_sync
      [⟨200, Json.obj [("status", Json.str "running")], ""⟩,
       ⟨200, Json.obj [("status", Json.str "running")], ""⟩,
       ⟨200, Json.obj [("status", Json.str "completed")], ""⟩]
      0 max_wait poll_interval 0 =
      (PollOutcome.finished (find_message (Json.obj [("status", Json.str "completed")]))
        (Json.obj [("status", Json.str "completed")]), 2) ∧
    _fetch_run_and_extract_message
      [⟨200, Json.obj [("status", Json.str "running")], ""⟩,
       ⟨200, Json.obj [("status", Json.str "running")], ""⟩,
       ⟨200, Json.obj [("status", Json.str "completed")], ""⟩]
      0 max_wait poll_interval 0 =
      (PollOutcome.finished (find_message (Json.obj [("status", Json.str "completed")]))
        (Json.obj [("status", Json.str "completed")]), 2) := by
  have tR : isTerminalSync (Json.obj [("status", Json.str "running")]) = false := rfl
  have tC : isTerminalSync (Json.obj [("status", Json.str "completed")]) = true := rfl
  have aR : isTerminalAsync (Json.obj [("status", Json.str "running")]) = false := rfl
  have aC : isTerminalAsync (Json.obj [("status", Json.str "completed")]) = true := rfl
  have s1 : ¬ (max_wait ≤ (0 : ℚ)) := by linarith
  have s2 : ¬ (max_wait ≤ (0 : ℚ) + poll_interval) := by linarith
  have s3 : poll_interval < max_wait := by linarith
  have s4 : (0 : ℚ) < max_wait := by linarith
  constructor <;>
    simp [fetch_run_and_extract_message_sync, _fetch_run_and_extract_message,
      tR, tC, aR, aC, s1, s2, s3, s4]

/-- Witness for C6 at interval 1 and maximum wait 3. -/
theorem C6_witness :
    fetch_run_and_extract_message_sync
      [⟨200, Json.obj [("status", Json.str "running")], ""⟩,
       ⟨200, Json.obj [("status", Json.str "running")], ""⟩,
       ⟨200, Json.obj [("status", Json.str "completed")], ""⟩] 0 3 1 0 =
      (PollOutcome.finished (find_message (Json.obj [("status", Json.str "completed")]))
        (Json.obj [("status", Json.str "completed")]), 2) :=
  (C6_two_sleeps 3 1 (by norm_num) (by norm_num)).1

/-- C7: a 200 response with body `{"status": "Running"}` arriving when
the accumulated wait has already reached the configured maximum makes
both pollers return a timeout outcome carrying that last-seen body,
without sleeping again. -/
theorem C7_timeout (elapsed max_wait poll_interval : ℚ) (h : max_wait ≤ elapsed) :
    fetch_run_and_extract_message_sync
      [⟨200, Json.obj [("status", Json.str "Running")], ""⟩]
      elapsed max_wait poll_interval 0 =
      (PollOutcome.timeout (Json.obj [("status", Json.str "Running")]), 0) ∧
    _fetch_run_and_extract_message
      [⟨200, Json.obj [("status", Json.str "Running")], ""⟩]
      elapsed max_wait poll_interval 0 =
      (PollOutcome.timeout (Json.obj [("status", Json.str "Running")]), 0) := by
  have tS : isTerminalSync (Json.obj [("status", Json.str "Running")]) = false := rfl
  have tA : isTerminalAsync (Json.obj [("status", Json.str "Running")]) = false := rfl
  constructor <;>
    simp [fetch_run_and_extract_message_sync, _fetch_run_and_extract_message, tS, tA, h]

/-- Witness for C7 with the wait already at the maximum. -/
theorem C7_witness :
    fetch_run_and_extract_message_sync
      [⟨200, Json.obj [("status", Json.str "Running")], ""⟩] 5 5 1 0 =
      (PollOutcome.timeout (Json.obj [("status", Json.str "Running")]), 0) :=
  (C7_timeout 5 5 1 (le_refl 5)).1

/-! ## Claim C9: thread id adopted once, never overwritten -/

/-- C9: once the session's thread id holds a truthy (non-empty) value,
any sequence of later run responses leaves it unchanged — a thread id
returned by a later response is ignored — and every later launch payload
carries exactly the adopted thread id. -/
theorem C9_thread_id_once (current : Option Json) (h : optTruthy current = true) :
    (∀ resps : List Json, List.foldl adoptThreadId current resps = current) ∧
    (∀ (message agent_id : String) (v : Json), current = some v →
      getKey (startRunPayload message agent_id current) "thread_id" = some v) := by
  constructor
  · intro resps
    induction resps with
    | nil => rfl
    | cons r rest ih =>
      have hstep : adoptThreadId current r = current := by
        simp [adoptThreadId, h]
      rw [List.foldl_cons, hstep, ih]
  · intro m a v hv
    subst hv
    have ht : v.truthy = true := by simpa [optTruthy] using h
    show getKey (startRunPayload m a (some v)) "thread_id" = some v
    have hp : startRunPayload m a (some v) =
        [("message", Json.obj [("role", Json.str "user"), ("content", Json.str m)]),
         ("agent_id", Json.str a), ("thread_id", v)] := by
      simp [startRunPayload, ht]
    rw [hp, getKey, if_neg (by decide), getKey, if_neg (by decide), getKey, if_pos rfl]

/-- Witness for C9: an already-adopted thread id survives a response
carrying a different one, and is the one sent in the next launch. -/
theorem C9_witness :
    List.foldl adoptThreadId (some (Json.str "t1"))
      [Json.obj [("thread_id", Json.str "t2")]] = some (Json.str "t1") ∧
    getKey (startRunPayload "hello" "agent" (some (Json.str "t1"))) "thread_id" =
      some (Json.str "t1") :=
  ⟨(C9_thread_id_once (some (Json.str "t1")) rfl).1 _,
   (C9_thread_id_once (some (Json.str "t1")) rfl).2 "hello" "agent" _ rfl⟩
